import Mathlib

/-!
Verification of the quap_validator ingestion-and-validation pipeline.

Shallow embedding of the repository's core modules:
* `validator/core/reporting.py` — report model, exit codes, path redaction
* `validator/core/compression.py` — archive staging and member-name safety
* `validator/core/geom_alias.py` — geometry alias normalization
* `validator/core/engine.py` — the validation engine
* `validator/adapters/` — chunked-copy loaders (GeoPackage fallback, shapefile)

Python strings are modelled as `String` (lists of characters); machine
integers as `Nat`/`Int`; fallible code as `Except`/`Option`.
-/

namespace QuapValidator

/-! ## Character-level string helpers

Python's `str.startswith`, substring membership (`in`), `str.split(sep, 1)`
and `str.replace` are embedded as executable functions over `List Char`,
which is exactly the data underlying Lean's `String`. -/

/-- `charsStartWith p s` holds when `p` is a literal prefix of `s`
(Python `s.startswith(p)` reads its arguments the other way round). -/
def charsStartWith : List Char → List Char → Bool
  | [], _ => true
  | _ :: _, [] => false
  | a :: as, b :: bs => a == b && charsStartWith as bs

/-- `charsContains pat s`: `pat` occurs as a contiguous substring of `s`
(Python `pat in s`). -/
def charsContains (pat : List Char) : List Char → Bool
  | [] => charsStartWith pat []
  | c :: rest => charsStartWith pat (c :: rest) || charsContains pat rest

/-- First-occurrence split: Python `s.split(sep, 1)` when `sep` occurs,
returning the part before and the part after the first occurrence. -/
def splitFirst (sep : List Char) : List Char → Option (List Char × List Char)
  | [] => if sep.isEmpty then some ([], []) else none
  | c :: rest =>
    if charsStartWith sep (c :: rest) then some ([], (c :: rest).drop sep.length)
    else
      match splitFirst sep rest with
      | some (a, b) => some (c :: a, b)
      | none => none

/-- Python `str.lower()` restricted to what the sources compare: ASCII
case folding, character by character (kernel-reducible, unlike
`String.toLower`). -/
def lowerStr (s : String) : String := String.mk (s.toList.map Char.toLower)

/-! ## Report model (`validator/core/reporting.py`) -/

/-- One structured validation finding (`reporting.Issue`); severity is
carried by which list (`errors`/`warnings`) the issue sits in. -/
structure Issue where
  code : String
  detail : Option String := none
  column : Option String := none
  columns : Option (List String) := none
  keys : Option (List String) := none
  invalid_rows : Option Nat := none
deriving DecidableEq, Repr

/-- Input metadata stored in a report (`reporting.InputMeta`). -/
structure InputMeta where
  path : String
  format : Option String := none
  layer : Option String := none
deriving DecidableEq, Repr

/-- The frozen result object (`reporting.Report`), restricted to the fields
the claims talk about. -/
structure Report where
  ok : Bool
  errors : List Issue
  warnings : List Issue
  input : InputMeta
deriving DecidableEq, Repr

def EXIT_OK : Nat := 0
def EXIT_CORRUPTED : Nat := 2
def EXIT_SCHEMA : Nat := 3
def EXIT_TYPES_OR_VALUES : Nat := 4
def EXIT_DUPLICATES : Nat := 5
def EXIT_OTHER : Nat := 6

/-- `Report.exit_code` from `reporting.py` lines 113-125: priority scan of
the codes present in the errors list.  Note the first tier tests only
`CORRUPTED_FILE`. -/
def Report.exit_code (r : Report) : Nat :=
  let codes := r.errors.map Issue.code
  if codes.contains "CORRUPTED_FILE" then EXIT_CORRUPTED
  else if codes.contains "MISSING_COLUMNS" then EXIT_SCHEMA
  else if codes.contains "DTYPE_MISMATCH" || codes.contains "ENUM_VIOLATION"
      || codes.contains "RANGE_VIOLATION" || codes.contains "NULL_REQUIRED" then
    EXIT_TYPES_OR_VALUES
  else if codes.contains "DUPLICATES" then EXIT_DUPLICATES
  else if r.ok then EXIT_OK else EXIT_OTHER

/-- `reporting.redact_path` on the underlying character list: a credential
redaction that fires only when the input has both `@` and `://` and the
part of the remainder before the first `@` contains a colon. -/
def redactChars (p : List Char) : List Char :=
  let tsep : List Char := [':', '/', '/']
  if charsContains ['@'] p && charsContains tsep p then
    match splitFirst tsep p with
    | some (scheme, rest) =>
      let before := match splitFirst ['@'] rest with
        | some (a, _) => a
        | none => rest
      if charsContains ['@'] rest && charsContains [':'] before then
        match splitFirst ['@'] rest with
        | some (_, tail) =>
          scheme ++ ([':', '/', '/', '*', '*', '*', '@'] ++ tail)
        | none => p
      else p
    | none => p
  else p

/-- `reporting.redact_path`. -/
def redact_path (p : String) : String := String.mk (redactChars p.toList)

/-- `reporting.build_report`, restricted to the fields the claims need:
the stored input path goes through `redact_path` (line 184). -/
def build_report (ok : Bool) (errors warnings : List Issue) (inputPath : String)
    (format layer : Option String) : Report :=
  { ok := ok, errors := errors, warnings := warnings,
    input := { path := redact_path inputPath, format := format, layer := layer } }

/-- The report the CLI builds when `maybe_decompress` raises `UnpackError`
(`cli.py` lines 180-212): a single `UNPACK_ERROR` issue, `ok=False`. -/
def unpackFailureReport : Report :=
  build_report false [{ code := "UNPACK_ERROR", detail := some "Unsafe member path" }]
    [] "input.zip" none none

/-- Exit-code mapping as the amended claim states it: priority over the
error codes, with `CORRUPTED_FILE` alone in the first tier (an
`UNPACK_ERROR`-only error list falls through to 6), and `0`/`6` decided
by `ok` when no tier matches. -/
def exitCodeAmendedSpec (codes : List String) (ok : Bool) : Nat :=
  if "CORRUPTED_FILE" ∈ codes then 2
  else if "MISSING_COLUMNS" ∈ codes then 3
  else if "DTYPE_MISMATCH" ∈ codes ∨ "ENUM_VIOLATION" ∈ codes
      ∨ "RANGE_VIOLATION" ∈ codes ∨ "NULL_REQUIRED" ∈ codes then 4
  else if "DUPLICATES" ∈ codes then 5
  else if ok then 0 else 6

/-! ## Archive staging (`validator/core/compression.py`)

Member names are '/'-separated paths; a segment is the character list
between two separators. -/

/-- One path segment. -/
abbrev Seg := List Char

/-- Python `s.split("/")` on the character level (keeps empty segments). -/
def splitSlashAux : List Char → List Char → List Seg
  | [], cur => [cur.reverse]
  | a :: as, cur =>
    if a = '/' then cur.reverse :: splitSlashAux as [] else splitSlashAux as (a :: cur)

/-- Python `s.split("/")`. -/
def splitSlash (s : List Char) : List Seg := splitSlashAux s []

/-- One step of `posixpath.normpath`'s component loop: skip empty/`.`
segments, keep `..` when at the relative root or stacked on another `..`,
otherwise pop. -/
def posixStep (isAbs : Bool) (acc : List Seg) (comp : Seg) : List Seg :=
  if comp = [] ∨ comp = ['.'] then acc
  else if comp ≠ ['.', '.'] ∨ (isAbs = false ∧ acc = []) ∨ acc.getLast? = some ['.', '.'] then
    acc ++ [comp]
  else if acc ≠ [] then acc.dropLast
  else acc

/-- Python `"/".join(segs)`. -/
def joinSegs : List Seg → List Char
  | [] => []
  | [s] => s
  | s :: rest => s ++ '/' :: joinSegs rest

/-- `posixpath.normpath` on the character level (the `os.path.normpath`
used by `_safe_members_tar`/`_safe_namelist_zip` on Linux). -/
def normpathChars (p : List Char) : List Char :=
  if p = [] then ['.']
  else
    let initialSlashes : Nat :=
      if charsStartWith ['/'] p then
        (if charsStartWith ['/', '/'] p && !(charsStartWith ['/', '/', '/'] p) then 2 else 1)
      else 0
    let comps := (splitSlash p).foldl (posixStep (decide (0 < initialSlashes))) []
    let out := List.replicate initialSlashes '/' ++ joinSegs comps
    if out = [] then ['.'] else out

/-- `os.path.normpath` as a `String` function. -/
def normpath (s : String) : String := String.mk (normpathChars s.toList)

/-- Python `name.replace("\\", "/")` (single-character pattern). -/
def backslashToSlash (l : List Char) : List Char :=
  l.map (fun c => if c = '\\' then '/' else c)

/-- The per-member safety test of `_safe_members_tar` and
`_safe_namelist_zip` (both run the identical checks): absolute prefixes
(`/` or `\`), a normalized path starting with `..`, or a `/../` infix of
the normalized path after turning backslashes into slashes. -/
def unsafeMemberName (name : String) : Bool :=
  let n := name.toList
  charsStartWith ['/'] n || charsStartWith ['\\'] n ||
    (let norm := normpathChars n
     charsStartWith ['.', '.'] norm || charsContains ['/', '.', '.', '/'] (backslashToSlash norm))

/-- The member-name loop of `_safe_namelist_zip`: raise `UnpackError` at
the first unsafe name, otherwise return the full name list.  The check
runs to completion before any extraction happens. -/
def safeNamelist : List String → Except String (List String)
  | [] => .ok []
  | n :: rest =>
    if unsafeMemberName n then .error ("Unsafe member path: " ++ n)
    else (safeNamelist rest).map (n :: ·)

/-- One step of kernel-side path resolution: where a write issued at a
(possibly dotted) path actually lands.  `..` pops one directory and is a
no-op at the root.  This models the filesystem, not repository code. -/
def fsStep (acc : List Seg) (comp : Seg) : List Seg :=
  if comp = [] ∨ comp = ['.'] then acc
  else if comp = ['.', '.'] then acc.dropLast
  else acc ++ [comp]

/-- Resolved location of a path given as segments, starting at the root. -/
def fsResolve (segs : List Seg) : List Seg := segs.foldl fsStep []

/-- The archive branch of `maybe_decompress` (`compression.py` lines
117-127): validate every member name first; only if all pass are the
members extracted, each landing at the resolution of `tmpdir/<name>`. -/
def archiveExtract (tmp : List Seg) (names : List String) : Except String (List (List Seg)) :=
  (safeNamelist names).map
    (fun safe => safe.map (fun n => fsResolve (tmp ++ splitSlash n.toList)))

/-- The claim's reading of a traversal member: some `/`-separated segment
of the raw name is literally `..`. -/
def hasDotDotSegment (name : String) : Bool :=
  (splitSlash name.toList).contains ['.', '.']

/-! ### Multi-file resolution (`_shapefile_dataset_root`, `maybe_decompress`) -/

/-- An extracted file, as `pathlib` observes it: everything up to the last
suffix (`with_suffix("")`, directory included), plus the last suffix
(`.shp`, `.dbf`, … or empty). -/
structure FPath where
  stem : String
  suffix : String
deriving DecidableEq, Repr

/-- `_shapefile_dataset_root`: the primary `.shp` if the files contain
exactly one `.shp` together with `.dbf` and `.shx` sidecars on its stem. -/
def shapefileDatasetRoot (paths : List FPath) : Option FPath :=
  match paths.filter (fun p => lowerStr p.suffix == ".shp") with
  | [p] =>
    let siblings := paths.filter (fun q => q.stem == p.stem)
    if siblings.any (fun q => lowerStr q.suffix == ".dbf")
        && siblings.any (fun q => lowerStr q.suffix == ".shx") then some p
    else none
  | _ => none

/-- Error text of `maybe_decompress` for an ambiguous multi-file archive. -/
def multiFileErrorMsg : String :=
  "Archive contains multiple files and does not represent a single Shapefile bundle."

/-- The post-extraction resolution of `maybe_decompress` (lines 133-150):
no file is an error, a single file is the root, otherwise the files must
form a single shapefile bundle. -/
def resolveExtractedFiles (files : List FPath) : Except String FPath :=
  match files with
  | [] => .error "Archive contained no files."
  | [f] => .ok f
  | _ =>
    match shapefileDatasetRoot files with
    | some p => .ok p
    | none => .error multiFileErrorMsg

/-- The claim's bundle condition: exactly one `.shp` member, which is `p`,
plus `.dbf` and `.shx` sidecar files sharing its stem. -/
def isSingleShapefileBundle (files : List FPath) (p : FPath) : Prop :=
  files.countP (fun q => lowerStr q.suffix == ".shp") = 1
  ∧ p ∈ files ∧ lowerStr p.suffix = ".shp"
  ∧ (∃ q ∈ files, q.stem = p.stem ∧ lowerStr q.suffix = ".dbf")
  ∧ (∃ q ∈ files, q.stem = p.stem ∧ lowerStr q.suffix = ".shx")

/-! ## Geometry alias normalization (`validator/core/geom_alias.py`)

A relation is observed through `_duckdb_cols`: an association list of
lower-cased column names to upper-cased column types, in declaration
order (an SQL view has no duplicate column names).  The SQL coercion
expression `COALESCE(ST_GeomFromWKB(TRY_CAST(x AS BLOB)), ST_GeomFromText(x))`
has DuckDB type `GEOMETRY`, so a view column defined by it is observed
with type `"GEOMETRY"`. -/

/-- Columns of a relation as `_duckdb_cols` reports them. -/
abbrev GCols := List (String × String)

/-- Structured outcome of `normalize_geometry_view`. -/
structure NormOutcome where
  normalized : Bool
  canonical : Option String
  source : Option String
  source_type : Option String
deriving DecidableEq, Repr

/-- `geom_alias.guess_canonical_by_columns` over the present
(lower-cased) column names. -/
def guess_canonical_by_columns (present : List String) : Option String :=
  if "lpis_geom" ∈ present then some "lpis_geom"
  else if "gsa_geom" ∈ present then some "gsa_geom"
  else if "gem" ∈ present then some "gsa_geom"
  else if present.any (fun k => charsStartWith "gsa_".toList k.toList) then some "gsa_geom"
  else if present.any (fun k => charsStartWith "lpis_".toList k.toList) then some "lpis_geom"
  else none

/-- `_guess_canonical` from `adapters/gpkg_adapter.py`: same decision,
written with a loop over the two canonical names first. -/
def gpkgGuessCanonical (present : List String) : Option String :=
  if "lpis_geom" ∈ present then some "lpis_geom"
  else if "gsa_geom" ∈ present then some "gsa_geom"
  else if "gem" ∈ present then some "gsa_geom"
  else if present.any (fun k => charsStartWith "gsa_".toList k.toList) then some "gsa_geom"
  else if present.any (fun k => charsStartWith "lpis_".toList k.toList) then some "lpis_geom"
  else none

/-- The claim's precedence list for canonical-name inference, written from
the claim's own words. -/
def canonicalPrecedenceSpec (present : List String) : Option String :=
  if "lpis_geom" ∈ present then some "lpis_geom"
  else if "gsa_geom" ∈ present then some "gsa_geom"
  else if "gem" ∈ present then some "gsa_geom"
  else if ∃ k ∈ present, charsStartWith "gsa_".toList k.toList = true then some "gsa_geom"
  else if ∃ k ∈ present, charsStartWith "lpis_".toList k.toList = true then some "lpis_geom"
  else none

/-- The `alias_map` of `normalize_geometry_view`; a canonical name outside
the map raises `KeyError` in the source. -/
def aliasMapLookup (c : String) : Option (List String) :=
  if c = "lpis_geom" then some ["lpis_geom", "geom", "geometry"]
  else if c = "gsa_geom" then some ["gsa_geom", "gem", "geometry"]
  else none

/-- `canonical = explicit_canonical or guess_canonical_by_columns(cols)`:
Python treats an empty explicit string as falsy. -/
def canonicalChoice (present : List String) : Option String → Option String
  | some c => if c = "" then guess_canonical_by_columns present else some c
  | none => guess_canonical_by_columns present

/-- The alias-selection loop: first alias whose lower-cased name is a
column of the relation, with its observed type. -/
def firstPresentAlias (cols : GCols) : List String → Option (String × String)
  | [] => none
  | a :: rest =>
    match cols.lookup (lowerStr a) with
    | some t => some (a, t)
    | none => firstPresentAlias cols rest

/-- `normalize_geometry_view`, observed at the column-schema level: the
result is the column list of the destination view plus the structured
outcome.  `CREATE VIEW … SELECT *` keeps the columns; the
`SELECT * EXCLUDE (c), expr AS c` form drops `c` and appends it with the
coercion expression's `GEOMETRY` type; `SELECT *, expr AS c` appends it.
A canonical name with no `alias_map` entry raises `KeyError`. -/
def normalize_geometry_view (cols : GCols) (explicit : Option String) :
    Except String (GCols × NormOutcome) :=
  match canonicalChoice (cols.map Prod.fst) explicit with
  | none =>
    .ok (cols, { normalized := false, canonical := none,
                 source := none, source_type := none })
  | some canonical =>
    match aliasMapLookup canonical with
    | none => .error "KeyError"
    | some aliases =>
      match cols.lookup (lowerStr canonical) with
      | some ctype =>
        if ctype = "GEOMETRY" then
          .ok (cols, { normalized := false, canonical := some canonical,
                       source := some canonical, source_type := some ctype })
        else
          .ok ((cols.filter (fun c => c.fst != lowerStr canonical))
                ++ [(lowerStr canonical, "GEOMETRY")],
               { normalized := true, canonical := some canonical,
                 source := some canonical, source_type := some ctype })
      | none =>
        match firstPresentAlias cols aliases with
        | none =>
          .ok (cols, { normalized := false, canonical := some canonical,
                       source := none, source_type := none })
        | some (src, stype) =>
          .ok (cols ++ [(lowerStr canonical, "GEOMETRY")],
               { normalized := true, canonical := some canonical,
                 source := some src, source_type := some stype })

/-! ## Validation engine (`validator/core/engine.py`)

A relation is what `DESCRIBE` exposes — a column list (name, upper-cased
physical type) plus rows of SQL values — and every check is a
set-cardinality query, embedded as a `countP` over the rows.  Value-level
operations the SQL engine performs (cast success, literal comparison) are
a parameter `SqlSem`; the theorems hold for any such semantics and
`defaultSem` is a concrete executable instance used by the witnesses. -/

/-- SQL values as the engine's queries observe them. -/
inductive DVal
  | null
  | str (s : String)
  | int (n : Int)
deriving DecidableEq, Repr

/-- Template literals (JSON strings and numbers). -/
inductive Lit
  | lstr (s : String)
  | lnum (n : Int)
deriving DecidableEq, Repr

/-- Value-level semantics delegated to DuckDB: `TRY_CAST` success,
literal equality (enum `IN` lists) and the cast-compare of range checks. -/
structure SqlSem where
  tryCastOk : DVal → String → Bool
  litEq : DVal → Lit → Bool
  ltLit : DVal → String → Lit → Bool
  gtLit : DVal → String → Lit → Bool

/-- Digits of a decimal numeral (kernel-reducible `str.toInt?` core). -/
def charsToNat? (l : List Char) : Option Nat :=
  if l.isEmpty then none
  else if l.all Char.isDigit then
    some (l.foldl (fun acc c => acc * 10 + (c.toNat - 48)) 0)
  else none

/-- Integer parse of a string (used by the default cast semantics). -/
def strToInt? (s : String) : Option Int :=
  match s.toList with
  | '-' :: rest => (charsToNat? rest).map (fun n => -(n : Int))
  | l => (charsToNat? l).map (fun n => (n : Int))

/-- A concrete `SqlSem` approximating DuckDB's coercions on the value
universe above. -/
def defaultSem : SqlSem where
  tryCastOk := fun v t =>
    match v with
    | .null => false
    | .int _ => !(t == "DATE" || t == "TIMESTAMP")
    | .str s =>
      if t == "VARCHAR" then true
      else if t == "BIGINT" then (strToInt? s).isSome
      else if t == "DOUBLE" then (strToInt? s).isSome
      else if t == "BOOLEAN" then s == "true" || s == "false"
      else false
  litEq := fun v l =>
    match v, l with
    | .str s, .lstr t => s == t
    | .int n, .lnum m => n == m
    | .str s, .lnum m => s == toString m
    | _, _ => false
  ltLit := fun v _ l =>
    match v, l with
    | .int n, .lnum m => n < m
    | .str s, .lnum m =>
      match strToInt? s with
      | some n => n < m
      | none => false
    | _, _ => false
  gtLit := fun v _ l =>
    match v, l with
    | .int n, .lnum m => m < n
    | .str s, .lnum m =>
      match strToInt? s with
      | some n => m < n
      | none => false
    | _, _ => false

/-- `range: {min?, max?}` of a `ColumnSpec` (template numbers). -/
structure RangeSpec where
  min : Option Int := none
  max : Option Int := none
deriving DecidableEq, Repr

/-- A template column. -/
structure ColumnSpec where
  name : String
  dtype : String
  required : Bool := false
  enum : Option (List Lit) := none
  range : Option RangeSpec := none
deriving DecidableEq, Repr

/-- A configured duplicate check (`duplicate_checks` entry). -/
structure DupCheck where
  keys : List String
  severity : String := "error"
  sample_limit : Nat := 1000
deriving DecidableEq, Repr

/-- A parsed template, restricted to what `validate_with_duckdb` reads. -/
structure Template where
  columns : List ColumnSpec
  allow_extra_columns : Bool := true
  null_equivalents : List Lit := []
  duplicate_checks : List DupCheck := []
deriving DecidableEq, Repr

/-- The relation under validation: `DESCRIBE` columns (name, upper-cased
type) and the rows, positionally parallel to the columns. -/
structure Relation where
  cols : List (String × String)
  rows : List (List DVal)
deriving DecidableEq, Repr

def Relation.present (r : Relation) : List String := r.cols.map Prod.fst

def Relation.duckType (r : Relation) (c : String) : Option String := r.cols.lookup c

/-- The value of column `c` in a row (SQL `NULL` when absent). -/
def Relation.cell (r : Relation) (row : List DVal) (c : String) : DVal :=
  match r.present.indexOf? c with
  | some i => row.getD i DVal.null
  | none => DVal.null

/-- `DUCK_TYPES` (`engine.py` lines 6-13); note the absence of
`geometry`. -/
def DUCK_TYPES : List (String × String) :=
  [("int64", "BIGINT"), ("float64", "DOUBLE"), ("string", "VARCHAR"),
   ("bool", "BOOLEAN"), ("date", "DATE"), ("timestamp", "TIMESTAMP")]

/-- The string null-equivalents (`_null_predicate` keeps only `str`
literals). -/
def stringNullEquivs (nes : List Lit) : List String :=
  nes.filterMap fun l =>
    match l with
    | .lstr s => some s
    | _ => none

/-- `_null_predicate` as a per-value predicate: `IS NULL`, plus equality
with a string null-equivalent only when `null_equivalents` is non-empty
and the physical type is not a (truthy) non-`VARCHAR` type. -/
def nullPredHolds (duckType : Option String) (nes : List Lit) (v : DVal) : Bool :=
  let base := v == DVal.null
  if nes.isEmpty || (match duckType with
      | some t => !(t == "") && !(t == "VARCHAR")
      | none => false) then base
  else
    let strVals := stringNullEquivs nes
    if strVals.isEmpty then base
    else base || (match v with
      | .str s => strVals.contains s
      | _ => false)

/-- The per-column null count query (`engine.py` lines 101-104). -/
def nullCount (rel : Relation) (duckType : Option String) (nes : List Lit)
    (c : String) : Nat :=
  rel.rows.countP (fun row => nullPredHolds duckType nes (rel.cell row c))

/-- `_bad_cast_count`: rows that are non-null by the null predicate yet
fail `TRY_CAST` to the template's logical type; geometry and unknown
logical types short-circuit to 0. -/
def badCastCount (sem : SqlSem) (rel : Relation) (c : String) (logical : String)
    (duckType : Option String) (nes : List Lit) : Nat :=
  if logical = "geometry" then 0
  else
    match DUCK_TYPES.lookup logical with
    | none => 0
    | some t =>
      rel.rows.countP (fun row =>
        let v := rel.cell row c
        !(nullPredHolds duckType nes v) && !(sem.tryCastOk v t))

/-- One entry of a `DTYPE_MISMATCH` issue's `details` list. -/
structure DtypeDetail where
  column : String
  dtype : Option String := none
  expected : Option String := none
  invalid_rows : Option Nat := none
deriving DecidableEq, Repr

/-- One duplicate-group example (key values plus occurrence count). -/
structure DupExample where
  keyVals : List DVal
  count : Nat
deriving DecidableEq, Repr

/-- An issue dict as the engine emits it (severity is carried by which
list it is appended to). -/
structure EngineIssue where
  code : String
  column : Option String := none
  columns : Option (List String) := none
  keys : Option (List String) := none
  invalid_rows : Option Nat := none
  count : Option Nat := none
  details : Option (List DtypeDetail) := none
  examples : Option (List DupExample) := none
deriving DecidableEq, Repr

/-- `validate_with_duckdb`'s result (`timing_sec` omitted; `metrics` is
the per-column null-count map). -/
structure EngineResult where
  ok : Bool
  errors : List EngineIssue
  warnings : List EngineIssue
  nulls : List (String × Nat)
deriving DecidableEq, Repr

/-- The unknown-dtype entry (`engine.py` lines 108-109): any logical type
outside `DUCK_TYPES` — including `geometry` — is collected. -/
def unknownDtypeDetail (c : ColumnSpec) : Option DtypeDetail :=
  if (DUCK_TYPES.lookup c.dtype).isNone then
    some { column := c.name, dtype := some c.dtype }
  else none

/-- The castability entry (`engine.py` lines 110-113). -/
def mismDetail (sem : SqlSem) (rel : Relation) (nes : List Lit) (c : ColumnSpec)
    (duckType : Option String) : Option DtypeDetail :=
  if (DUCK_TYPES.lookup c.dtype).isSome then
    if 0 < badCastCount sem rel c.name c.dtype duckType nes then
      some { column := c.name, expected := some c.dtype,
             invalid_rows := some (badCastCount sem rel c.name c.dtype duckType nes) }
    else none
  else none

/-- The enum-membership check (`engine.py` lines 115-128). -/
def enumIssue (sem : SqlSem) (rel : Relation) (nes : List Lit) (c : ColumnSpec)
    (duckType : Option String) : Option EngineIssue :=
  match c.enum with
  | none => none
  | some vals =>
    if 0 < rel.rows.countP (fun row =>
        !(nullPredHolds duckType nes (rel.cell row c.name))
          && !(vals.any (fun l => sem.litEq (rel.cell row c.name) l))) then
      some { code := "ENUM_VIOLATION", column := some c.name,
             invalid_rows := some (rel.rows.countP (fun row =>
               !(nullPredHolds duckType nes (rel.cell row c.name))
                 && !(vals.any (fun l => sem.litEq (rel.cell row c.name) l)))) }
    else none

/-- The range-membership check (`engine.py` lines 130-150); an absent
bound is `FALSE`. -/
def rangeIssue (sem : SqlSem) (rel : Relation) (nes : List Lit) (c : ColumnSpec)
    (duckType : Option String) : Option EngineIssue :=
  match c.range with
  | none => none
  | some rng =>
    match DUCK_TYPES.lookup c.dtype with
    | none => none
    | some t =>
      if 0 < rel.rows.countP (fun row =>
          !(nullPredHolds duckType nes (rel.cell row c.name))
            && ((match rng.min with
                  | some m => sem.ltLit (rel.cell row c.name) t (Lit.lnum m)
                  | none => false)
              || (match rng.max with
                  | some m => sem.gtLit (rel.cell row c.name) t (Lit.lnum m)
                  | none => false))) then
        some { code := "RANGE_VIOLATION", column := some c.name,
               invalid_rows := some (rel.rows.countP (fun row =>
                 !(nullPredHolds duckType nes (rel.cell row c.name))
                   && ((match rng.min with
                         | some m => sem.ltLit (rel.cell row c.name) t (Lit.lnum m)
                         | none => false)
                     || (match rng.max with
                         | some m => sem.gtLit (rel.cell row c.name) t (Lit.lnum m)
                         | none => false)))) }
      else none

/-- The key tuple of a row. -/
def tupleOf (rel : Relation) (keys : List String) (row : List DVal) : List DVal :=
  keys.map (rel.cell row)

/-- `_dup_examples`: the groups with more than one row, up to `limit`
(SQL `GROUP BY … HAVING count>1 LIMIT limit`; group order is not
specified, so first-occurrence order stands in for it). -/
def dupExamples (rel : Relation) (keys : List String) (limit : Nat) : List DupExample :=
  (((rel.rows.map (tupleOf rel keys)).dedup).filterMap (fun t =>
    if 1 < (rel.rows.map (tupleOf rel keys)).count t then
      some { keyVals := t, count := (rel.rows.map (tupleOf rel keys)).count t }
    else none)).take limit

/-- Some key tuple occurs in more than one row. -/
def hasDuplicateKey (rel : Relation) (keys : List String) : Bool :=
  (rel.rows.map (tupleOf rel keys)).any
    (fun t => 1 < (rel.rows.map (tupleOf rel keys)).count t)

/-- One duplicate check (`engine.py` lines 173-181): skipped when a key
column is missing, an issue exactly when `_dup_examples` is non-empty. -/
def dupIssue (rel : Relation) (d : DupCheck) : Option EngineIssue :=
  if d.keys.all (fun k => rel.present.contains k) then
    if (dupExamples rel d.keys d.sample_limit).isEmpty then none
    else some { code := "DUPLICATES", keys := some d.keys,
                examples := some (dupExamples rel d.keys d.sample_limit) }
  else none

/-- `validate_with_duckdb`, with issues in the source's append order:
`MISSING_COLUMNS`, per-column `ENUM`/`RANGE` issues, the unknown-dtype
`DTYPE_MISMATCH`, the castability `DTYPE_MISMATCH`, `NULL_REQUIRED`,
duplicate errors; warnings are `EXTRA_COLUMNS` then duplicate warnings;
`ok` iff the errors list is empty. -/
def validate_with_duckdb (sem : SqlSem) (rel : Relation) (tpl : Template) :
    EngineResult :=
  let present := rel.present
  let expected := tpl.columns.map (fun c => c.name)
  let missing := expected.filter (fun c => !(present.contains c))
  let extra := if !tpl.allow_extra_columns then
      present.filter (fun c => !(expected.contains c))
    else []
  let missingIssues : List EngineIssue :=
    if missing.isEmpty then []
    else [{ code := "MISSING_COLUMNS", columns := some missing }]
  let extraIssues : List EngineIssue :=
    if extra.isEmpty then []
    else [{ code := "EXTRA_COLUMNS", columns := some extra }]
  let nes := tpl.null_equivalents
  let presentSpecs := tpl.columns.filter (fun c => present.contains c.name)
  let nulls := presentSpecs.map
    (fun c => (c.name, nullCount rel (rel.duckType c.name) nes c.name))
  let unknowns := presentSpecs.filterMap unknownDtypeDetail
  let mism := presentSpecs.filterMap
    (fun c => mismDetail sem rel nes c (rel.duckType c.name))
  let perColIssues := presentSpecs.flatMap (fun c =>
    (enumIssue sem rel nes c (rel.duckType c.name)).toList
      ++ (rangeIssue sem rel nes c (rel.duckType c.name)).toList)
  let unknownIssues : List EngineIssue :=
    if unknowns.isEmpty then []
    else [{ code := "DTYPE_MISMATCH", details := some unknowns }]
  let mismIssues : List EngineIssue :=
    if mism.isEmpty then []
    else [{ code := "DTYPE_MISMATCH", details := some mism }]
  let nullReqIssues := tpl.columns.filterMap (fun c =>
    if c.required && present.contains c.name && ((nulls.lookup c.name).getD 0 > 0) then
      some { code := "NULL_REQUIRED", column := some c.name,
             count := some ((nulls.lookup c.name).getD 0) }
    else none)
  let dupErrors := tpl.duplicate_checks.filterMap (fun d =>
    if d.severity == "error" then dupIssue rel d else none)
  let dupWarnings := tpl.duplicate_checks.filterMap (fun d =>
    if d.severity == "error" then none else dupIssue rel d)
  let errors := missingIssues ++ perColIssues ++ unknownIssues ++ mismIssues
    ++ nullReqIssues ++ dupErrors
  let warnings := extraIssues ++ dupWarnings
  { ok := errors.isEmpty, errors := errors, warnings := warnings, nulls := nulls }

/-- The claim's null-count formulation: rows that are `NULL` or — only
for a `VARCHAR` physical column — equal to a string null-equivalent. -/
def specNullCount (rel : Relation) (T : String) (nes : List Lit) (c : String) : Nat :=
  rel.rows.countP (fun row =>
    match rel.cell row c with
    | .null => true
    | .str s => T == "VARCHAR" && (stringNullEquivs nes).contains s
    | .int _ => false)

/-! ### Concrete engine inputs used by the evaluation theorems -/

/-- A template declaring one geometry column. -/
def geomTpl : Template :=
  { columns := [{ name := "geom", dtype := "geometry" }] }

/-- A relation exposing that geometry column. -/
def geomRel : Relation :=
  { cols := [("geom", "GEOMETRY")], rows := [[DVal.str "POINT(0 0)"]] }

/-- A duplicate check with `sample_limit = 0`. -/
def dupTpl0 : Template :=
  { columns := [{ name := "k", dtype := "string" }],
    duplicate_checks := [{ keys := ["k"], severity := "error", sample_limit := 0 }] }

/-- A default duplicate check on `parcel_id`. -/
def dupTpl : Template :=
  { columns := [{ name := "parcel_id", dtype := "string" }],
    duplicate_checks := [{ keys := ["parcel_id"] }] }

/-- Two rows sharing the key value `"42"`. -/
def dupRel : Relation :=
  { cols := [("k", "VARCHAR")], rows := [[DVal.str "42"], [DVal.str "42"]] }

/-- Two rows sharing `parcel_id = "42"`. -/
def dupRel2 : Relation :=
  { cols := [("parcel_id", "VARCHAR")], rows := [[DVal.str "42"], [DVal.str "42"]] }

/-- Template with a string column and the null-equivalent `"NA"`. -/
def nullTpl : Template :=
  { columns := [{ name := "a", dtype := "string" }],
    null_equivalents := [Lit.lstr "NA"] }

/-- Relation with a `VARCHAR` column holding `"NA"`, `NULL` and `"x"`. -/
def nullRel : Relation :=
  { cols := [("a", "VARCHAR")], rows := [[DVal.str "NA"], [DVal.null], [DVal.str "x"]] }

/-! ## Chunked-copy fallbacks (`adapters/gpkg_adapter.py`,
`adapters/shapefile_adapter.py`) -/

/-- Staging state after a loader runs: the tables it created with their
row counts, and the table the exposed view selects from. -/
structure LoadOutcome where
  tables : List (String × Nat)
  viewSource : String
deriving DecidableEq, Repr

/-- Sizes of the successive paginated reads (`LIMIT 200000 OFFSET …` /
`skip_features`/`max_features`) until a read returns no rows; the fuel
argument makes the recursion structural (each read consumes ≥ 1 row). -/
def chunkSizesFuel : Nat → Nat → List Nat
  | 0, _ => []
  | _, 0 => []
  | fuel + 1, n + 1 =>
    let c := min 200000 (n + 1)
    c :: chunkSizesFuel fuel (n + 1 - c)

/-- Read sizes for a source of `n` rows. -/
def chunkSizes (n : Nat) : List Nat := chunkSizesFuel n n

/-- The shared chunk loop: the staging table is created on the first
non-empty batch; afterwards each batch's rows are appended. -/
def runChunkLoop (tableName : String) (chunks : List Nat) : Option (String × Nat) :=
  chunks.foldl (fun st c =>
    match st with
    | none => some (tableName, c)
    | some (n, k) => some (n, k + c)) none

/-- `load_shapefile_into_duck` at the staging level: if no batch arrived,
the `if not created` branch creates the literal `_shape_tmp` table
(`shapefile_adapter.py` line 73) regardless of the requested
`table_name`, while the view always selects from `table_name`. -/
def load_shapefile_into_duck (nrows : Nat) (table_name : String) : LoadOutcome :=
  match runChunkLoop table_name (chunkSizes nrows) with
  | some t => { tables := [t], viewSource := table_name }
  | none => { tables := [("_shape_tmp", 0)], viewSource := table_name }

/-- The chunked-copy fallback of `load_gpkg_view` (`gpkg_adapter.py`
lines 193-237): the staging table name is the local constant
`_gpkg_tmp` in both the loop and the empty branch. -/
def gpkgFallbackLoad (nrows : Nat) : LoadOutcome :=
  match runChunkLoop "_gpkg_tmp" (chunkSizes nrows) with
  | some t => { tables := [t], viewSource := "_gpkg_tmp" }
  | none => { tables := [("_gpkg_tmp", 0)], viewSource := "_gpkg_tmp" }

/-- The row-count probe `SELECT COUNT(*) FROM v`: the view resolves to
its source table; a missing source is an error (`none`). -/
def rowCountProbe (out : LoadOutcome) : Option Nat :=
  out.tables.lookup out.viewSource

end QuapValidator

namespace QuapValidator

/-! ## Theorems -/

/-! ### String-helper lemmas -/

theorem charsStartWith_self_append (p x : List Char) : charsStartWith p (p ++ x) = true := by
  induction p with
  | nil => rfl
  | cons a as ih => simp [charsStartWith, ih]

theorem charsContains_nil_pat (l : List Char) : charsContains [] l = true := by
  cases l <;> simp [charsContains, charsStartWith]

theorem charsContains_append_self (pat a b : List Char) :
    charsContains pat (a ++ pat ++ b) = true := by
  induction a with
  | nil =>
    cases pat with
    | nil => simpa using charsContains_nil_pat b
    | cons c cs =>
      simp only [List.nil_append, List.cons_append, charsContains, Bool.or_eq_true]
      exact Or.inl (by simpa using charsStartWith_self_append (c :: cs) b)
  | cons d a' ih =>
    simp only [List.cons_append, charsContains, Bool.or_eq_true]
    exact Or.inr (by simpa [List.append_assoc] using ih)

theorem charsContains_singleton_iff (c : Char) (l : List Char) :
    charsContains [c] l = true ↔ c ∈ l := by
  induction l with
  | nil => simp [charsContains, charsStartWith]
  | cons d rest ih =>
    by_cases h : c = d
    · subst h; simp [charsContains, charsStartWith]
    · simp [charsContains, charsStartWith, h, ih, Ne.symm h]

theorem splitFirst_seam (c : Char) (pat a b : List Char) (h : c ∉ a) :
    splitFirst (c :: pat) (a ++ (c :: pat) ++ b) = some (a, b) := by
  induction a with
  | nil =>
    have hp : charsStartWith (c :: pat) (c :: (pat ++ b)) = true := by
      simpa using charsStartWith_self_append (c :: pat) b
    simp [splitFirst, hp, List.drop_left]
  | cons d a' ih =>
    have hne : c ≠ d := fun hcd => h (hcd ▸ List.mem_cons_self d a')
    have h' : c ∉ a' := fun hm => h (List.mem_cons_of_mem d hm)
    have hpre : charsStartWith (c :: pat) (d :: (a' ++ c :: (pat ++ b))) = false := by
      simp [charsStartWith, hne]
    simp only [List.cons_append, List.append_assoc] at ih ⊢
    rw [splitFirst, hpre]
    simp [ih h']

/-- C1 counterexample: a report whose only error is the `UNPACK_ERROR`
issue the CLI emits on an unpack failure gets exit code 6, not the
claimed 2 — the first exit-code tier matches only `CORRUPTED_FILE`. -/
theorem C1_unpack_error_exits_6 :
    unpackFailureReport.exit_code = 6 ∧ unpackFailureReport.exit_code ≠ 2 := by
  decide

/-- C1 (amended): `exit_code` is determined, by priority, purely by the
issue codes present in the errors list together with `ok`; the first
tier is `CORRUPTED_FILE` only (an `UNPACK_ERROR`-class error does not map
to 2), then `MISSING_COLUMNS` → 3, the four value tiers → 4,
`DUPLICATES` → 5, else 0 when `ok` and 6 otherwise.  Warnings never
influence the exit code (the right-hand side mentions only errors). -/
theorem C1_exit_code_amended (r : Report) :
    r.exit_code = exitCodeAmendedSpec (r.errors.map Issue.code) r.ok := by
  simp [Report.exit_code, exitCodeAmendedSpec, List.contains, List.elem_eq_mem,
    EXIT_CORRUPTED, EXIT_SCHEMA, EXIT_TYPES_OR_VALUES, EXIT_DUPLICATES, EXIT_OK, EXIT_OTHER,
    or_assoc]

/-- C9 counterexample: a path of the form `scheme://userinfo@rest` whose
userinfo has no colon is stored unchanged by `build_report`, not as
`scheme://***@rest` — the redaction requires a `:` before the first `@`. -/
theorem C9_userinfo_without_colon_not_redacted :
    (build_report false [] [] "s3://alice@bucket/data.csv" none none).input.path
        = "s3://alice@bucket/data.csv"
    ∧ (build_report false [] [] "s3://alice@bucket/data.csv" none none).input.path
        ≠ "s3://***@bucket/data.csv" := by
  decide

/-- C9 (amended): `build_report` stores the input path with the userinfo
component replaced by a placeholder exactly when that userinfo contains a
colon (a `key:secret` pair); a colon-free userinfo is left unchanged.
Stated for any URI `scheme ++ "://" ++ ui ++ "@" ++ tail` whose scheme
contains no colon and whose userinfo contains no `@`. -/
theorem C9_redaction_amended (scheme ui tail : String)
    (hs : ':' ∉ scheme.toList) (hu : '@' ∉ ui.toList) :
    (build_report false [] [] (scheme ++ "://" ++ ui ++ "@" ++ tail) none none).input.path
      = (if ':' ∈ ui.toList then scheme ++ "://***@" ++ tail
         else scheme ++ "://" ++ ui ++ "@" ++ tail) := by
  obtain ⟨s⟩ := scheme
  obtain ⟨u⟩ := ui
  obtain ⟨t⟩ := tail
  simp only [String.toList] at hs hu ⊢
  have hdata : (String.mk s ++ "://" ++ String.mk u ++ "@" ++ String.mk t).data
      = s ++ ([':', '/', '/'] ++ (u ++ ('@' :: t))) := by
    simp [String.data_append]
  have hat : charsContains ['@'] (s ++ ([':', '/', '/'] ++ (u ++ ('@' :: t)))) = true := by
    rw [charsContains_singleton_iff]
    simp
  have hts : charsContains [':', '/', '/'] (s ++ ([':', '/', '/'] ++ (u ++ ('@' :: t)))) = true := by
    simpa [List.append_assoc] using
      charsContains_append_self [':', '/', '/'] s (u ++ ('@' :: t))
  have hsplit1 : splitFirst [':', '/', '/'] (s ++ ([':', '/', '/'] ++ (u ++ ('@' :: t))))
      = some (s, u ++ ('@' :: t)) := by
    simpa [List.append_assoc] using splitFirst_seam ':' ['/', '/'] s (u ++ ('@' :: t)) hs
  have hsplit2 : splitFirst ['@'] (u ++ ('@' :: t)) = some (u, t) := by
    simpa [List.append_assoc] using splitFirst_seam '@' [] u t hu
  have hat2 : charsContains ['@'] (u ++ ('@' :: t)) = true := by
    rw [charsContains_singleton_iff]
    simp
  have hcolon : charsContains [':'] u = decide (':' ∈ u) := by
    by_cases h : ':' ∈ u
    · simp [h, (charsContains_singleton_iff ':' u).mpr h]
    · rw [decide_eq_false h]
      cases hval : charsContains [':'] u
      · rfl
      · exact absurd ((charsContains_singleton_iff ':' u).mp hval) h
  simp only [build_report, redact_path, redactChars, String.toList, hdata, hat, hts,
    hsplit1, hsplit2, hat2, hcolon, Bool.and_eq_true, Bool.true_and, decide_eq_true_eq]
  by_cases h : ':' ∈ u
  · simp [h, String.ext_iff, String.data_append]
  · simp [h, String.ext_iff, String.data_append, hdata]

/-- Witness for `C9_redaction_amended` at a concrete credentialed URI. -/
theorem C9_redaction_amended_witness :
    (':' ∉ "s3".toList) ∧ ('@' ∉ "key:secret".toList) ∧
    (build_report false [] [] ("s3" ++ "://" ++ "key:secret" ++ "@" ++ "bucket/x") none none).input.path
      = (if ':' ∈ "key:secret".toList then "s3" ++ "://***@" ++ "bucket/x"
         else "s3" ++ "://" ++ "key:secret" ++ "@" ++ "bucket/x") :=
  ⟨by decide, by decide,
    C9_redaction_amended "s3" "key:secret" "bucket/x" (by decide) (by decide)⟩

/-! ### Archive-staging lemmas -/

theorem safeNamelist_ok_of_all_safe (names : List String)
    (h : ∀ n ∈ names, unsafeMemberName n = false) :
    safeNamelist names = .ok names := by
  induction names with
  | nil => rfl
  | cons n rest ih =>
    have hn := h n (List.mem_cons_self n rest)
    simp [safeNamelist, hn, ih (fun m hm => h m (List.mem_cons_of_mem n hm)), Except.map]

theorem safeNamelist_error_of_bad_member (names : List String)
    (h : ∃ n ∈ names, unsafeMemberName n = true) :
    ∃ msg, safeNamelist names = .error msg := by
  induction names with
  | nil => simp at h
  | cons n rest ih =>
    by_cases hn : unsafeMemberName n
    · exact ⟨"Unsafe member path: " ++ n, by simp [safeNamelist, hn]⟩
    · obtain ⟨m, hm, hum⟩ := h
      rcases List.mem_cons.mp hm with rfl | hm'
      · exact absurd hum (by simpa using hn)
      · obtain ⟨msg, hmsg⟩ := ih ⟨m, hm', hum⟩
        exact ⟨msg, by simp [safeNamelist, hn, hmsg, Except.map]⟩

theorem posixStep_skip (b : Bool) (acc : List Seg) (comp : Seg)
    (h : comp = [] ∨ comp = ['.']) : posixStep b acc comp = acc := by
  unfold posixStep
  rw [if_pos h]

theorem posixStep_append (b : Bool) (acc : List Seg) (comp : Seg)
    (h1 : comp ≠ [] ∧ comp ≠ ['.'])
    (h2 : comp ≠ ['.', '.'] ∨ (b = false ∧ acc = []) ∨ acc.getLast? = some ['.', '.']) :
    posixStep b acc comp = acc ++ [comp] := by
  unfold posixStep
  rw [if_neg (by tauto), if_pos h2]

theorem posixStep_pop (acc : List Seg)
    (hne : acc ≠ []) (hlast : acc.getLast? ≠ some ['.', '.']) :
    posixStep false acc ['.', '.'] = acc.dropLast := by
  unfold posixStep
  rw [if_neg (by simp), if_neg (by simp [hne, hlast]), if_pos hne]

theorem fsStep_skip (acc : List Seg) (comp : Seg)
    (h : comp = [] ∨ comp = ['.']) : fsStep acc comp = acc := by
  unfold fsStep
  rw [if_pos h]

theorem fsStep_dd (acc : List Seg) : fsStep acc ['.', '.'] = acc.dropLast := by
  unfold fsStep
  rw [if_neg (by simp), if_pos rfl]

theorem fsStep_append (acc : List Seg) (comp : Seg)
    (h1 : comp ≠ [] ∧ comp ≠ ['.']) (h2 : comp ≠ ['.', '.']) :
    fsStep acc comp = acc ++ [comp] := by
  unfold fsStep
  rw [if_neg (by tauto), if_neg h2]

theorem mem_dropLast_of_ne_getLast {l : List Seg}
    (ha : ['.', '.'] ∈ l) (hne : l ≠ []) (hlast : l.getLast? ≠ some ['.', '.']) :
    ['.', '.'] ∈ l.dropLast := by
  have hdec := List.dropLast_append_getLast hne
  rw [← hdec] at ha
  rcases List.mem_append.mp ha with h | h
  · exact h
  · exfalso
    apply hlast
    rw [List.getLast?_eq_getLast_of_ne_nil hne]
    simpa using (List.mem_singleton.mp h).symm

theorem dd_persists (segs : List Seg) :
    ∀ acc : List Seg, ['.', '.'] ∈ acc →
      ['.', '.'] ∈ segs.foldl (posixStep false) acc := by
  induction segs with
  | nil => intro acc h; simpa using h
  | cons comp rest ih =>
    intro acc h
    rw [List.foldl_cons]
    apply ih
    by_cases h1 : comp = [] ∨ comp = ['.']
    · rwa [posixStep_skip _ _ _ h1]
    · by_cases h2 : comp ≠ ['.', '.'] ∨ (false = false ∧ acc = [])
          ∨ acc.getLast? = some ['.', '.']
      · rw [posixStep_append _ _ _ (by tauto) h2]
        exact List.mem_append_left _ h
      · push_neg at h2
        obtain ⟨hdd, hacc, hlast⟩ := h2
        subst hdd
        rw [posixStep_pop acc (hacc rfl) hlast]
        exact mem_dropLast_of_ne_getLast h (hacc rfl) hlast

theorem dotsPrefix_foldl (segs : List Seg) :
    ∀ acc : List Seg,
      (∃ k rest, acc = List.replicate k ['.', '.'] ++ rest ∧ ['.', '.'] ∉ rest) →
      ∃ k rest, segs.foldl (posixStep false) acc = List.replicate k ['.', '.'] ++ rest
        ∧ ['.', '.'] ∉ rest := by
  induction segs with
  | nil => intro acc h; simpa using h
  | cons comp restSegs ih =>
    intro acc h
    rw [List.foldl_cons]
    apply ih
    obtain ⟨k, rest, rfl, hrest⟩ := h
    by_cases h1 : comp = [] ∨ comp = ['.']
    · rw [posixStep_skip _ _ _ h1]
      exact ⟨k, rest, rfl, hrest⟩
    · by_cases hdd : comp = ['.', '.']
      · subst hdd
        by_cases hacc : List.replicate k (['.', '.'] : Seg) ++ rest = []
        · rw [posixStep_append _ _ _ (by simp) (Or.inr (Or.inl ⟨rfl, hacc⟩))]
          rw [hacc]
          exact ⟨1, [], by simp, by simp⟩
        · by_cases hlast : (List.replicate k (['.', '.'] : Seg) ++ rest).getLast?
              = some ['.', '.']
          · have hrestnil : rest = [] := by
              by_contra hrn
              rw [List.getLast?_append_of_ne_nil _ hrn] at hlast
              have : (['.', '.'] : Seg) ∈ rest := by
                have hgl := List.getLast?_eq_getLast_of_ne_nil hrn
                rw [hgl] at hlast
                have := Option.some.inj hlast
                rw [← this]
                exact List.getLast_mem hrn
              exact hrest this
            subst hrestnil
            rw [posixStep_append _ _ _ (by simp) (Or.inr (Or.inr hlast))]
            refine ⟨k + 1, [], ?_, by simp⟩
            simp [List.replicate_succ']
          · rw [posixStep_pop _ hacc hlast]
            have hrn : rest ≠ [] := by
              intro hrnil
              subst hrnil
              apply hlast
              simp only [List.append_nil] at hacc ⊢
              have hk : k ≠ 0 := by
                intro hk0
                subst hk0
                exact hacc rfl
              obtain ⟨k', rfl⟩ := Nat.exists_eq_succ_of_ne_zero hk
              rw [List.replicate_succ']
              simp
            rw [List.dropLast_append_of_ne_nil _ hrn]
            refine ⟨k, rest.dropLast, rfl, fun hmem => hrest ?_⟩
            exact (List.dropLast_sublist rest).subset hmem
      · rw [posixStep_append _ _ _ (by tauto) (Or.inl hdd)]
        refine ⟨k, rest ++ [comp], by simp, ?_⟩
        intro hmem
        rcases List.mem_append.mp hmem with h | h
        · exact hrest h
        · exact hdd (List.mem_singleton.mp h).symm

theorem head_dd_of_dotsFront {l : List Seg}
    (hinv : ∃ k rest, l = List.replicate k ['.', '.'] ++ rest ∧ ['.', '.'] ∉ rest)
    (hmem : ['.', '.'] ∈ l) : ∃ rest, l = ['.', '.'] :: rest := by
  obtain ⟨k, rest, rfl, hrest⟩ := hinv
  cases k with
  | zero => simp at hmem; exact absurd hmem hrest
  | succ k => exact ⟨List.replicate k ['.', '.'] ++ rest, by simp [List.replicate_succ]⟩

theorem no_dd_of_not_flagged (name : String)
    (h : unsafeMemberName name = false) :
    ['.', '.'] ∉ (splitSlash name.toList).foldl (posixStep false) [] := by
  intro hmem
  have hinv := dotsPrefix_foldl (splitSlash name.toList) [] ⟨0, [], rfl, by simp⟩
  obtain ⟨tl, hout⟩ := head_dd_of_dotsFront hinv hmem
  unfold unsafeMemberName at h
  simp only [Bool.or_eq_false_iff] at h
  obtain ⟨⟨⟨hslash, _⟩, hflag⟩⟩ := And.intro h trivial
  by_cases hnil : name.toList = []
  · rw [hnil] at hout
    have hempty : (splitSlash []).foldl (posixStep false) [] = [] := by decide
    rw [hempty] at hout
    exact absurd hout (by simp)
  · have habs0 : normpathChars name.toList
        = (if List.replicate 0 '/' ++ joinSegs ((splitSlash name.toList).foldl
            (posixStep (decide (0 < 0))) []) = [] then ['.']
          else List.replicate 0 '/' ++ joinSegs ((splitSlash name.toList).foldl
            (posixStep (decide (0 < 0))) [])) := by
      unfold normpathChars
      rw [if_neg hnil]
      simp only [hslash, Bool.false_eq_true, if_false]
    have hdecide : (decide (0 < 0)) = false := by decide
    rw [hdecide] at habs0
    simp only [List.replicate, List.nil_append] at habs0
    rw [hout] at habs0
    have hpre : charsStartWith ['.', '.'] (normpathChars name.toList) = true := by
      rw [habs0]
      cases tl with
      | nil => decide
      | cons s tls =>
        have : joinSegs (['.', '.'] :: s :: tls)
            = ['.', '.'] ++ '/' :: joinSegs (s :: tls) := rfl
        rw [this]
        rw [if_neg (by simp)]
        simp [charsStartWith]
    rw [hpre] at hflag
    simp at hflag

theorem fsFold_eq_of_no_dd (segs : List Seg) :
    ∀ st acc : List Seg, ['.', '.'] ∉ segs.foldl (posixStep false) acc →
      segs.foldl fsStep (st ++ acc) = st ++ segs.foldl (posixStep false) acc := by
  induction segs with
  | nil => intro st acc _; simp
  | cons comp rest ih =>
    intro st acc h
    rw [List.foldl_cons] at h ⊢
    rw [List.foldl_cons]
    have hstep : fsStep (st ++ acc) comp = st ++ posixStep false acc comp := by
      by_cases h1 : comp = [] ∨ comp = ['.']
      · rw [fsStep_skip _ _ h1, posixStep_skip _ _ _ h1]
      · by_cases hdd : comp = ['.', '.']
        · subst hdd
          rw [fsStep_dd]
          by_cases hacc : acc = []
          · exfalso
            apply h
            apply dd_persists
            rw [posixStep_append _ _ _ (by simp) (Or.inr (Or.inl ⟨rfl, hacc⟩))]
            simp
          · by_cases hlast : acc.getLast? = some ['.', '.']
            · exfalso
              apply h
              apply dd_persists
              rw [posixStep_append _ _ _ (by simp) (Or.inr (Or.inr hlast))]
              simp
            · rw [posixStep_pop acc hacc hlast]
              exact List.dropLast_append_of_ne_nil _ hacc
        · rw [fsStep_append _ _ (by tauto) hdd,
            posixStep_append _ _ _ (by tauto) (Or.inl hdd), List.append_assoc]
    rw [hstep]
    exact ih st (posixStep false acc comp) h

theorem resolve_inside_tmp (tmp : List Seg) (htmp : fsResolve tmp = tmp)
    (name : String) (h : unsafeMemberName name = false) :
    ∃ rest, fsResolve (tmp ++ splitSlash name.toList) = tmp ++ rest := by
  have hno := no_dd_of_not_flagged name h
  have hmain := fsFold_eq_of_no_dd (splitSlash name.toList) tmp [] (by simpa using hno)
  refine ⟨(splitSlash name.toList).foldl (posixStep false) [], ?_⟩
  unfold fsResolve at htmp ⊢
  rw [List.foldl_append, htmp]
  simpa using hmain

/-- C3 counterexample: the member name `a/../b` contains a `..` traversal
segment, yet the safety check of `_safe_namelist_zip`/`_safe_members_tar`
does not flag it (its normalized path `b` is clean), so `maybe_decompress`
extracts it rather than raising `UnpackError`. -/
theorem C3_inner_dotdot_not_flagged :
    hasDotDotSegment "a/../b" = true ∧ unsafeMemberName "a/../b" = false
    ∧ safeNamelist ["a/../b"] = Except.ok ["a/../b"] :=
  ⟨by decide, by decide, by rfl⟩

/-- C3 (amended): `maybe_decompress` raises the single unpack-failure
error before any member is extracted exactly when some member name is
absolute or its *normalized* path starts with `..` or contains `/../`
(an inner `..` segment that normalizes away is allowed); and whenever no
member is flagged, every extracted file resolves to a location inside the
temporary staging directory. -/
theorem C3_member_check_amended (tmp : List Seg) (names : List String)
    (htmp : fsResolve tmp = tmp) :
    ((∃ n ∈ names, unsafeMemberName n = true) →
        ∃ msg, archiveExtract tmp names = .error msg)
    ∧ ((∀ n ∈ names, unsafeMemberName n = false) →
        archiveExtract tmp names
          = .ok (names.map (fun n => fsResolve (tmp ++ splitSlash n.toList)))
        ∧ ∀ out ∈ names.map (fun n => fsResolve (tmp ++ splitSlash n.toList)),
            ∃ rest, out = tmp ++ rest) := by
  constructor
  · intro h
    obtain ⟨msg, hmsg⟩ := safeNamelist_error_of_bad_member names h
    exact ⟨msg, by simp [archiveExtract, hmsg, Except.map]⟩
  · intro h
    refine ⟨by simp [archiveExtract, safeNamelist_ok_of_all_safe names h, Except.map], ?_⟩
    intro out hout
    obtain ⟨n, hn, rfl⟩ := List.mem_map.mp hout
    exact resolve_inside_tmp tmp htmp n (h n hn)

/-- Witness for `C3_member_check_amended`: the spec's own example member
`../../etc/passwd` is flagged and the whole extraction fails. -/
theorem C3_member_check_amended_witness :
    fsResolve [['t', 'm', 'p']] = [['t', 'm', 'p']]
    ∧ (∃ n ∈ ["../../etc/passwd"], unsafeMemberName n = true)
    ∧ ∃ msg, archiveExtract [['t', 'm', 'p']] ["../../etc/passwd"] = .error msg :=
  ⟨by decide, by decide,
    (C3_member_check_amended [['t', 'm', 'p']] ["../../etc/passwd"] (by decide)).1
      (by decide)⟩

/-! ### Multi-file bundle resolution -/

theorem filter_eq_singleton_iff (p : FPath → Bool) (l : List FPath) (a : FPath) :
    l.filter p = [a] ↔ l.countP p = 1 ∧ a ∈ l ∧ p a = true := by
  constructor
  · intro h
    refine ⟨by rw [List.countP_eq_length_filter, h]; rfl, ?_, ?_⟩
    · exact List.mem_of_mem_filter (h ▸ List.mem_singleton_self a)
    · exact List.of_mem_filter (h ▸ List.mem_singleton_self a)
  · rintro ⟨hc, hm, hp⟩
    have hlen : (l.filter p).length = 1 := by
      rw [← List.countP_eq_length_filter]
      exact hc
    obtain ⟨b, hb⟩ := List.length_eq_one.mp hlen
    have hmem : a ∈ l.filter p := List.mem_filter.mpr ⟨hm, hp⟩
    rw [hb] at hmem
    rw [hb, List.mem_singleton.mp hmem]

theorem shapefileDatasetRoot_eq_some_iff (files : List FPath) (p : FPath) :
    shapefileDatasetRoot files = some p ↔ isSingleShapefileBundle files p := by
  unfold shapefileDatasetRoot
  split
  next q hfe =>
    constructor
    · intro h
      have h' : (if ((files.filter (fun r => r.stem == q.stem)).any
              (fun r => lowerStr r.suffix == ".dbf")
            && (files.filter (fun r => r.stem == q.stem)).any
              (fun r => lowerStr r.suffix == ".shx")) = true
          then some q else none) = some p := h
      clear h
      rename' h' => h
      split_ifs at h with hcond
      · have hqp : q = p := Option.some.inj h
        subst hqp
        obtain ⟨hc, hm, hpred⟩ := (filter_eq_singleton_iff _ _ _).mp hfe
        rw [Bool.and_eq_true] at hcond
        obtain ⟨hdbf, hshx⟩ := hcond
        refine ⟨hc, hm, by simpa using hpred, ?_, ?_⟩
        · obtain ⟨r, hr, hrdbf⟩ := List.any_eq_true.mp hdbf
          obtain ⟨hrf, hrstem⟩ := List.mem_filter.mp hr
          exact ⟨r, hrf, by simpa using hrstem, by simpa using hrdbf⟩
        · obtain ⟨r, hr, hrshx⟩ := List.any_eq_true.mp hshx
          obtain ⟨hrf, hrstem⟩ := List.mem_filter.mp hr
          exact ⟨r, hrf, by simpa using hrstem, by simpa using hrshx⟩
    · rintro ⟨hc, hm, hpred, ⟨d, hd, hdstem, hddbf⟩, ⟨x, hx, hxstem, hxshx⟩⟩
      have hfp : files.filter (fun r => lowerStr r.suffix == ".shp") = [p] :=
        (filter_eq_singleton_iff _ _ _).mpr ⟨hc, hm, by simpa using hpred⟩
      have hqp : q = p := by
        rw [hfe] at hfp
        simpa using hfp
      subst hqp
      have hcond : ((files.filter (fun r => r.stem == q.stem)).any
              (fun r => lowerStr r.suffix == ".dbf")
            && (files.filter (fun r => r.stem == q.stem)).any
              (fun r => lowerStr r.suffix == ".shx")) = true := by
        rw [Bool.and_eq_true]
        constructor
        · exact List.any_eq_true.mpr
            ⟨d, List.mem_filter.mpr ⟨hd, by simpa using hdstem⟩, by simpa using hddbf⟩
        · exact List.any_eq_true.mpr
            ⟨x, List.mem_filter.mpr ⟨hx, by simpa using hxstem⟩, by simpa using hxshx⟩
      show (if ((files.filter (fun r => r.stem == q.stem)).any
              (fun r => lowerStr r.suffix == ".dbf")
            && (files.filter (fun r => r.stem == q.stem)).any
              (fun r => lowerStr r.suffix == ".shx")) = true
          then some q else none) = some q
      rw [if_pos hcond]
  next hne =>
    constructor
    · intro h
      simp at h
    · rintro ⟨hc, hm, hpred, -, -⟩
      exfalso
      have hfp : files.filter (fun r => lowerStr r.suffix == ".shp") = [p] :=
        (filter_eq_singleton_iff _ _ _).mpr ⟨hc, hm, by simpa using hpred⟩
      exact hne p hfp

/-- C6: after extracting a multi-member archive to more than one file,
`maybe_decompress` returns the primary `.shp` as dataset root exactly when
the files form a single legacy shapefile bundle (exactly one `.shp`, with
`.dbf` and `.shx` sidecars sharing its stem); every other multi-file
outcome raises `UnpackError` with the descriptive message. -/
theorem C6_multi_file_bundle (files : List FPath) (h2 : 2 ≤ files.length) :
    (∀ p, resolveExtractedFiles files = .ok p ↔ isSingleShapefileBundle files p)
    ∧ ((∀ p, ¬ isSingleShapefileBundle files p) →
        resolveExtractedFiles files = .error multiFileErrorMsg) := by
  obtain - | ⟨a, - | ⟨b, rest⟩⟩ := files
  · simp at h2
  · simp at h2
  · have hres : resolveExtractedFiles (a :: b :: rest)
        = (match shapefileDatasetRoot (a :: b :: rest) with
           | some p => .ok p
           | none => .error multiFileErrorMsg) := rfl
    cases hroot : shapefileDatasetRoot (a :: b :: rest) with
    | some q =>
      have hq : isSingleShapefileBundle (a :: b :: rest) q :=
        (shapefileDatasetRoot_eq_some_iff _ q).mp hroot
      rw [hres, hroot]
      constructor
      · intro p
        constructor
        · intro h
          have : q = p := by simpa using h
          exact this ▸ hq
        · intro hp
          have : shapefileDatasetRoot (a :: b :: rest) = some p :=
            (shapefileDatasetRoot_eq_some_iff _ p).mpr hp
          rw [hroot] at this
          simpa using this
      · intro hall
        exact absurd hq (hall q)
    | none =>
      rw [hres, hroot]
      constructor
      · intro p
        constructor
        · intro h
          simp at h
        · intro hp
          have : shapefileDatasetRoot (a :: b :: rest) = some p :=
            (shapefileDatasetRoot_eq_some_iff _ p).mpr hp
          rw [hroot] at this
          simp at this
      · intro _
        rfl

/-- Witness for `C6_multi_file_bundle`: a three-file shapefile bundle
resolves to its `.shp` primary. -/
theorem C6_multi_file_bundle_witness :
    2 ≤ ([⟨"park", ".shp"⟩, ⟨"park", ".dbf"⟩, ⟨"park", ".shx"⟩] : List FPath).length
    ∧ resolveExtractedFiles [⟨"park", ".shp"⟩, ⟨"park", ".dbf"⟩, ⟨"park", ".shx"⟩]
        = .ok ⟨"park", ".shp"⟩ :=
  ⟨by decide,
    ((C6_multi_file_bundle [⟨"park", ".shp"⟩, ⟨"park", ".dbf"⟩, ⟨"park", ".shx"⟩]
      (by decide)).1 ⟨"park", ".shp"⟩).mpr
      (by unfold isSingleShapefileBundle; decide)⟩

/-! ### Geometry-alias lemmas -/

theorem lookup_append_of_none {b : Type} (l1 l2 : List (String × b)) (k : String)
    (h : List.lookup k l1 = none) :
    List.lookup k (l1 ++ l2) = List.lookup k l2 := by
  induction l1 with
  | nil => rfl
  | cons p rest ih =>
    obtain ⟨a, v⟩ := p
    by_cases hk : (k == a) = true
    · simp [List.lookup, hk] at h
    · simp only [List.cons_append, List.lookup, hk, Bool.false_eq_true, if_false] at h ⊢
      exact ih h

theorem lookup_filter_self_none {b : Type} (cols : List (String × b)) (k : String) :
    List.lookup k (cols.filter (fun c => c.fst != k)) = none := by
  induction cols with
  | nil => rfl
  | cons p rest ih =>
    obtain ⟨a, v⟩ := p
    by_cases ha : (a != k) = true
    · have hka : (k == a) = false := by
        rw [bne_iff_ne] at ha
        exact beq_eq_false_iff_ne.mpr (Ne.symm ha)
      simp [List.filter_cons, ha, List.lookup, hka, ih]
    · simp [List.filter_cons, ha, ih]

theorem guess_eq_lpis_or_gsa (present : List String) (c : String)
    (h : guess_canonical_by_columns present = some c) :
    c = "lpis_geom" ∨ c = "gsa_geom" := by
  unfold guess_canonical_by_columns at h
  split_ifs at h <;>
    first
      | exact Or.inl (Option.some.inj h).symm
      | exact Or.inr (Option.some.inj h).symm

theorem aliasMapLookup_some_cases (c : String) (a : List String)
    (h : aliasMapLookup c = some a) : c = "lpis_geom" ∨ c = "gsa_geom" := by
  unfold aliasMapLookup at h
  split_ifs at h with h1 h2
  · exact Or.inl h1
  · exact Or.inr h2

theorem guess_canonical_mem_invariant (l1 l2 : List String)
    (h : ∀ x, x ∈ l1 ↔ x ∈ l2) :
    guess_canonical_by_columns l1 = guess_canonical_by_columns l2 := by
  unfold guess_canonical_by_columns
  have hany : ∀ f : String → Bool, (l1.any f = true) ↔ (l2.any f = true) := by
    intro f
    simp only [List.any_eq_true]
    constructor
    · rintro ⟨x, hx, hf⟩
      exact ⟨x, (h x).mp hx, hf⟩
    · rintro ⟨x, hx, hf⟩
      exact ⟨x, (h x).mpr hx, hf⟩
  by_cases h1 : "lpis_geom" ∈ l1
  · rw [if_pos h1, if_pos ((h _).mp h1)]
  · rw [if_neg h1, if_neg (fun hc => h1 ((h _).mpr hc))]
    by_cases h2 : "gsa_geom" ∈ l1
    · rw [if_pos h2, if_pos ((h _).mp h2)]
    · rw [if_neg h2, if_neg (fun hc => h2 ((h _).mpr hc))]
      by_cases h3 : "gem" ∈ l1
      · rw [if_pos h3, if_pos ((h _).mp h3)]
      · rw [if_neg h3, if_neg (fun hc => h3 ((h _).mpr hc))]
        by_cases h4 : l1.any (fun k => charsStartWith "gsa_".toList k.toList) = true
        · rw [if_pos h4, if_pos ((hany _).mp h4)]
        · rw [if_neg h4, if_neg (fun hc => h4 ((hany _).mpr hc))]
          by_cases h5 : l1.any (fun k => charsStartWith "lpis_".toList k.toList) = true
          · rw [if_pos h5, if_pos ((hany _).mp h5)]
          · rw [if_neg h5, if_neg (fun hc => h5 ((hany _).mpr hc))]

theorem guess_canonical_stable (names names' : List String) (c : String)
    (hg : guess_canonical_by_columns names = some c)
    (hmem : ∀ x, x ∈ names' ↔ (x ∈ names ∨ x = c)) :
    guess_canonical_by_columns names' = some c := by
  rcases guess_eq_lpis_or_gsa names c hg with rfl | rfl
  · have hin : "lpis_geom" ∈ names' := (hmem _).mpr (Or.inr rfl)
    unfold guess_canonical_by_columns
    rw [if_pos hin]
  · have hnl : "lpis_geom" ∉ names := by
      intro hin
      unfold guess_canonical_by_columns at hg
      rw [if_pos hin] at hg
      simp at hg
    have hnl' : "lpis_geom" ∉ names' := by
      intro hin
      rcases (hmem _).mp hin with hmem1 | hmem1
      · exact hnl hmem1
      · exact absurd hmem1 (by decide)
    have hin : "gsa_geom" ∈ names' := (hmem _).mpr (Or.inr rfl)
    unfold guess_canonical_by_columns
    rw [if_neg hnl', if_pos hin]

theorem canonicalChoice_stable (names names' : List String) (explicit : Option String)
    (c : String) (hcc : canonicalChoice names explicit = some c)
    (hmem : ∀ x, x ∈ names' ↔ (x ∈ names ∨ x = c)) :
    canonicalChoice names' explicit = some c := by
  cases explicit with
  | none =>
    simp only [canonicalChoice] at hcc ⊢
    exact guess_canonical_stable _ _ c hcc hmem
  | some e =>
    by_cases he : e = ""
    · subst he
      simp only [canonicalChoice, if_pos rfl] at hcc ⊢
      exact guess_canonical_stable _ _ c hcc hmem
    · simp only [canonicalChoice, if_neg he] at hcc ⊢
      exact hcc

theorem normalize_second_run (out : GCols) (explicit : Option String) (c : String)
    (aliases : List String)
    (hcc2 : canonicalChoice (out.map Prod.fst) explicit = some c)
    (hal : aliasMapLookup c = some aliases)
    (hlow : lowerStr c = c)
    (hlk2 : out.lookup c = some "GEOMETRY") :
    normalize_geometry_view out explicit
      = .ok (out, { normalized := false, canonical := some c,
                    source := some c, source_type := some "GEOMETRY" }) := by
  simp [normalize_geometry_view, hcc2, hal, hlow, hlk2]

/-- C7: the Geometry Alias Normalizer is idempotent — a second run on the
column schema produced by a normalizing first run is a pass-through that
reports `normalized = false` with the same canonical name, the canonical
column being a true `GEOMETRY` column, and leaves the columns unchanged. -/
theorem C7_normalizer_idempotent (cols : GCols) (explicit : Option String)
    (out : GCols) (o : NormOutcome)
    (h : normalize_geometry_view cols explicit = .ok (out, o))
    (hn : o.normalized = true) :
    normalize_geometry_view out explicit
      = .ok (out, { normalized := false, canonical := o.canonical,
                    source := o.canonical, source_type := some "GEOMETRY" }) := by
  cases hcc : canonicalChoice (cols.map Prod.fst) explicit with
  | none =>
    simp only [normalize_geometry_view, hcc, Except.ok.injEq, Prod.mk.injEq] at h
    rw [← h.2] at hn
    simp at hn
  | some c =>
    simp only [normalize_geometry_view, hcc] at h
    cases hal : aliasMapLookup c with
    | none =>
      simp only [hal] at h
      exact absurd h (by simp)
    | some aliases =>
      simp only [hal] at h
      have hc2 := aliasMapLookup_some_cases c aliases hal
      have hlow : lowerStr c = c := by
        rcases hc2 with rfl | rfl <;> decide
      rw [hlow] at h
      cases hlk : cols.lookup c with
      | some ctype =>
        simp only [hlk] at h
        by_cases hgeo : ctype = "GEOMETRY"
        · rw [if_pos hgeo] at h
          simp only [Except.ok.injEq, Prod.mk.injEq] at h
          rw [← h.2] at hn
          simp at hn
        · rw [if_neg hgeo] at h
          simp only [Except.ok.injEq, Prod.mk.injEq] at h
          obtain ⟨hout, ho⟩ := h
          subst hout
          subst ho
          have hmemA : ∀ x,
              x ∈ ((cols.filter (fun p => p.fst != c)) ++ [(c, "GEOMETRY")]).map Prod.fst
                ↔ (x ∈ cols.map Prod.fst ∨ x = c) := by
            intro x
            simp only [List.map_append, List.mem_append, List.mem_map, List.mem_filter,
              bne_iff_ne, List.map_cons, List.map_nil, List.mem_singleton]
            constructor
            · rintro (⟨p, ⟨hp, -⟩, rfl⟩ | hx)
              · exact Or.inl ⟨p, hp, rfl⟩
              · exact Or.inr hx
            · rintro (⟨p, hp, rfl⟩ | rfl)
              · by_cases hpc : p.fst = c
                · exact Or.inr hpc
                · exact Or.inl ⟨p, ⟨hp, hpc⟩, rfl⟩
              · exact Or.inr rfl
          have hcc2 := canonicalChoice_stable _ _ explicit c hcc hmemA
          have hlk2 : ((cols.filter (fun p => p.fst != c))
              ++ [(c, "GEOMETRY")]).lookup c = some "GEOMETRY" := by
            rw [lookup_append_of_none _ _ _ (lookup_filter_self_none cols c)]
            simp [List.lookup]
          exact normalize_second_run _ explicit c aliases hcc2 hal hlow hlk2
      | none =>
        simp only [hlk] at h
        cases hfa : firstPresentAlias cols aliases with
        | none =>
          simp only [hfa, Except.ok.injEq, Prod.mk.injEq] at h
          rw [← h.2] at hn
          simp at hn
        | some srcpair =>
          obtain ⟨src, stype⟩ := srcpair
          simp only [hfa, Except.ok.injEq, Prod.mk.injEq] at h
          obtain ⟨hout, ho⟩ := h
          subst hout
          subst ho
          have hmemB : ∀ x, x ∈ (cols ++ [(c, "GEOMETRY")]).map Prod.fst
              ↔ (x ∈ cols.map Prod.fst ∨ x = c) := by
            intro x
            simp [List.mem_append]
          have hcc2 := canonicalChoice_stable _ _ explicit c hcc hmemB
          have hlk2 : (cols ++ [(c, "GEOMETRY")]).lookup c = some "GEOMETRY" := by
            rw [lookup_append_of_none _ _ _ hlk]
            simp [List.lookup]
          exact normalize_second_run _ explicit c aliases hcc2 hal hlow hlk2

/-- Witness for `C7_normalizer_idempotent`: normalizing a relation whose
only geometry-ish column is a text `gem` column, then normalizing again. -/
theorem C7_normalizer_idempotent_witness :
    normalize_geometry_view [("gem", "VARCHAR")] none
        = .ok ([("gem", "VARCHAR"), ("gsa_geom", "GEOMETRY")],
               { normalized := true, canonical := some "gsa_geom",
                 source := some "gem", source_type := some "VARCHAR" })
    ∧ normalize_geometry_view [("gem", "VARCHAR"), ("gsa_geom", "GEOMETRY")] none
        = .ok ([("gem", "VARCHAR"), ("gsa_geom", "GEOMETRY")],
               { normalized := false, canonical := some "gsa_geom",
                 source := some "gsa_geom", source_type := some "GEOMETRY" }) :=
  ⟨by rfl,
    C7_normalizer_idempotent [("gem", "VARCHAR")] none
      [("gem", "VARCHAR"), ("gsa_geom", "GEOMETRY")]
      { normalized := true, canonical := some "gsa_geom",
        source := some "gem", source_type := some "VARCHAR" }
      (by rfl) (by rfl)⟩

/-- C10: with no explicit canonical name, canonical-name inference is a
pure function of the set of present lower-cased column names, follows the
claim's fixed precedence (`lpis_geom` → `gsa_geom` → `gem` → `gsa_*` →
`lpis_*` → none), agrees with the gpkg adapter's `_guess_canonical`, and
on no match the relation passes through unchanged with
`normalized = false`. -/
theorem C10_canonical_inference (cols : GCols) (other : List String)
    (hset : ∀ x, x ∈ cols.map Prod.fst ↔ x ∈ other) :
    guess_canonical_by_columns (cols.map Prod.fst)
        = canonicalPrecedenceSpec (cols.map Prod.fst)
    ∧ guess_canonical_by_columns (cols.map Prod.fst)
        = guess_canonical_by_columns other
    ∧ gpkgGuessCanonical (cols.map Prod.fst)
        = guess_canonical_by_columns (cols.map Prod.fst)
    ∧ (guess_canonical_by_columns (cols.map Prod.fst) = none →
        normalize_geometry_view cols none
          = .ok (cols, { normalized := false, canonical := none,
                         source := none, source_type := none })) := by
  refine ⟨?_, guess_canonical_mem_invariant _ _ hset, rfl, ?_⟩
  · unfold guess_canonical_by_columns canonicalPrecedenceSpec
    simp only [List.any_eq_true]
  · intro hnone
    have hcc : canonicalChoice (cols.map Prod.fst) none = none := by
      simpa [canonicalChoice] using hnone
    simp [normalize_geometry_view, hcc]

/-- Witness for `C10_canonical_inference` on a relation with one
`gsa_`-prefixed column. -/
theorem C10_canonical_inference_witness :
    guess_canonical_by_columns (([("gsa_par", "VARCHAR")] : GCols).map Prod.fst)
        = canonicalPrecedenceSpec (([("gsa_par", "VARCHAR")] : GCols).map Prod.fst) :=
  (C10_canonical_inference [("gsa_par", "VARCHAR")] ["gsa_par"]
    (fun _ => Iff.rfl)).1



/-! ### Validation-engine lemmas -/

theorem enumIssue_code (sem : SqlSem) (rel : Relation) (nes : List Lit)
    (c : ColumnSpec) (dt : Option String) (i : EngineIssue)
    (h : enumIssue sem rel nes c dt = some i) : i.code = "ENUM_VIOLATION" := by
  unfold enumIssue at h
  cases he : c.enum with
  | none =>
    simp only [he] at h
    simp at h
  | some vals =>
    simp only [he] at h
    split_ifs at h
    rw [← Option.some.inj h]

theorem rangeIssue_code (sem : SqlSem) (rel : Relation) (nes : List Lit)
    (c : ColumnSpec) (dt : Option String) (i : EngineIssue)
    (h : rangeIssue sem rel nes c dt = some i) : i.code = "RANGE_VIOLATION" := by
  unfold rangeIssue at h
  cases hr : c.range with
  | none =>
    simp only [hr] at h
    simp at h
  | some rng =>
    simp only [hr] at h
    cases hd : DUCK_TYPES.lookup c.dtype with
    | none =>
      simp only [hd] at h
      simp at h
    | some t =>
      simp only [hd] at h
      split_ifs at h
      rw [← Option.some.inj h]

theorem dupIssue_some_spec (rel : Relation) (d : DupCheck) (i : EngineIssue)
    (h : dupIssue rel d = some i) :
    i.code = "DUPLICATES" ∧ i.keys = some d.keys
      ∧ i.examples = some (dupExamples rel d.keys d.sample_limit) := by
  unfold dupIssue at h
  split_ifs at h
  exact ⟨by rw [← Option.some.inj h], by rw [← Option.some.inj h],
    by rw [← Option.some.inj h]⟩

theorem dupExamples_length_le (rel : Relation) (keys : List String) (limit : Nat) :
    (dupExamples rel keys limit).length ≤ limit := by
  unfold dupExamples
  exact List.length_take_le _ _

theorem dupExamples_mem_spec (rel : Relation) (keys : List String) (limit : Nat)
    (e : DupExample) (h : e ∈ dupExamples rel keys limit) :
    e.count = (rel.rows.map (tupleOf rel keys)).count e.keyVals ∧ 2 ≤ e.count := by
  unfold dupExamples at h
  have h1 := List.mem_of_mem_take h
  obtain ⟨t, ht, heq⟩ := List.mem_filterMap.mp h1
  split_ifs at heq with hc
  obtain rfl := Option.some.inj heq
  exact ⟨rfl, hc⟩

theorem dupExamples_empty_iff (rel : Relation) (keys : List String) (limit : Nat)
    (hlim : 1 ≤ limit) :
    dupExamples rel keys limit = [] ↔ hasDuplicateKey rel keys = false := by
  unfold dupExamples hasDuplicateKey
  rw [List.take_eq_nil_iff]
  constructor
  · rintro (h0 | hnil)
    · omega
    · rw [List.filterMap_eq_nil_iff] at hnil
      rw [← Bool.not_eq_true, List.any_eq_true]
      rintro ⟨t, ht, hcount⟩
      have hft := hnil t (List.mem_dedup.mpr ht)
      rw [if_pos (by simpa using hcount)] at hft
      simp at hft
  · intro hfalse
    right
    rw [List.filterMap_eq_nil_iff]
    intro t ht
    rw [if_neg ?_]
    intro hcount
    have hany : (rel.rows.map (tupleOf rel keys)).any
        (fun t => decide (1 < (rel.rows.map (tupleOf rel keys)).count t)) = true :=
      List.any_eq_true.mpr ⟨t, List.mem_dedup.mp ht, by simpa using hcount⟩
    rw [hany] at hfalse
    exact absurd hfalse (by simp)

theorem dupIssue_missing_key (rel : Relation) (d : DupCheck)
    (h : d.keys.all (fun k => rel.present.contains k) = false) :
    dupIssue rel d = none := by
  unfold dupIssue
  rw [if_neg (by rw [h]; simp)]

theorem dupIssue_isSome_iff (rel : Relation) (d : DupCheck)
    (hall : d.keys.all (fun k => rel.present.contains k) = true)
    (hlim : 1 ≤ d.sample_limit) :
    (dupIssue rel d).isSome = true ↔ hasDuplicateKey rel d.keys = true := by
  unfold dupIssue
  rw [if_pos hall]
  by_cases he : (dupExamples rel d.keys d.sample_limit).isEmpty = true
  · rw [if_pos he]
    rw [List.isEmpty_iff] at he
    have hdup := (dupExamples_empty_iff rel d.keys _ hlim).mp he
    simp [hdup]
  · rw [if_neg he]
    have hne : dupExamples rel d.keys d.sample_limit ≠ [] := by
      intro hnil
      exact he (by simp [hnil])
    cases hdup : hasDuplicateKey rel d.keys
    · exact absurd ((dupExamples_empty_iff rel d.keys _ hlim).mpr hdup) hne
    · simp

theorem filter_dup_nil (l : List EngineIssue)
    (hl : ∀ i ∈ l, (i.code == "DUPLICATES") = false) :
    l.filter (fun i => i.code == "DUPLICATES") = [] :=
  List.filter_eq_nil_iff.mpr (fun i hi => by simp [hl i hi])

theorem filter_dup_self (l : List EngineIssue)
    (hl : ∀ i ∈ l, i.code = "DUPLICATES") :
    l.filter (fun i => i.code == "DUPLICATES") = l :=
  List.filter_eq_self.mpr (fun i hi => by simp [hl i hi])

theorem mem_ite_nil_singleton {b : Prop} [Decidable b] {x i : EngineIssue}
    (hi : i ∈ (if b then ([] : List EngineIssue) else [x])) : i = x := by
  split at hi
  · simp at hi
  · simpa using hi

theorem validate_dup_filters (sem : SqlSem) (rel : Relation) (tpl : Template) :
    (validate_with_duckdb sem rel tpl).errors.filter (fun i => i.code == "DUPLICATES")
        = tpl.duplicate_checks.filterMap (fun d =>
            if d.severity == "error" then dupIssue rel d else none)
    ∧ (validate_with_duckdb sem rel tpl).warnings.filter (fun i => i.code == "DUPLICATES")
        = tpl.duplicate_checks.filterMap (fun d =>
            if d.severity == "error" then none else dupIssue rel d) := by
  constructor
  · simp only [validate_with_duckdb, List.filter_append]
    rw [filter_dup_nil _ ?hmissing, filter_dup_nil _ ?hpercol, filter_dup_nil _ ?hunk,
      filter_dup_nil _ ?hmism, filter_dup_nil _ ?hnullreq, filter_dup_self _ ?hdup]
    · simp
    case hmissing =>
      intro i hi
      rw [mem_ite_nil_singleton hi]
      rfl
    case hpercol =>
      intro i hi
      obtain ⟨c, hc, hic⟩ := List.mem_flatMap.mp hi
      rcases List.mem_append.mp hic with hmem | hmem
      · rw [enumIssue_code sem rel tpl.null_equivalents c (rel.duckType c.name) i
          (by simpa using hmem)]
        rfl
      · rw [rangeIssue_code sem rel tpl.null_equivalents c (rel.duckType c.name) i
          (by simpa using hmem)]
        rfl
    case hunk =>
      intro i hi
      rw [mem_ite_nil_singleton hi]
      rfl
    case hmism =>
      intro i hi
      rw [mem_ite_nil_singleton hi]
      rfl
    case hnullreq =>
      intro i hi
      obtain ⟨c, hc, heq⟩ := List.mem_filterMap.mp hi
      split_ifs at heq
      rw [← Option.some.inj heq]
      rfl
    case hdup =>
      intro i hi
      obtain ⟨d, hd, heq⟩ := List.mem_filterMap.mp hi
      split_ifs at heq
      exact (dupIssue_some_spec rel d i heq).1
  · simp only [validate_with_duckdb, List.filter_append]
    rw [filter_dup_nil _ ?hextra, filter_dup_self _ ?hdupw]
    · simp
    case hextra =>
      intro i hi
      rw [mem_ite_nil_singleton hi]
      rfl
    case hdupw =>
      intro i hi
      obtain ⟨d, hd, heq⟩ := List.mem_filterMap.mp hi
      split_ifs at heq
      exact (dupIssue_some_spec rel d i heq).1

theorem validate_ok_iff_errors_nil (sem : SqlSem) (rel : Relation) (tpl : Template) :
    (validate_with_duckdb sem rel tpl).ok = true
      ↔ (validate_with_duckdb sem rel tpl).errors = [] := by
  have h : (validate_with_duckdb sem rel tpl).ok
      = (validate_with_duckdb sem rel tpl).errors.isEmpty := rfl
  rw [h, List.isEmpty_iff]

/-- C2 evaluation at the failing input: a template column declared
`geometry` and present in the relation makes `validate_with_duckdb` emit
a `DTYPE_MISMATCH` error (as an unknown dtype, `geometry` being absent
from `DUCK_TYPES`) and `ok = false` — even though `_bad_cast_count`'s own
geometry branch yields 0 bad rows. -/
theorem C2_geometry_dtype_mismatch :
    (validate_with_duckdb defaultSem geomRel geomTpl).errors
        = [{ code := "DTYPE_MISMATCH",
             details := some [{ column := "geom", dtype := some "geometry" }] }]
    ∧ (validate_with_duckdb defaultSem geomRel geomTpl).ok = false
    ∧ badCastCount defaultSem geomRel "geom" "geometry"
        (geomRel.duckType "geom") geomTpl.null_equivalents = 0 := by
  decide

/-- C8 evaluation: a zero-row source through the GeoPackage chunked
fallback yields a valid empty relation (count-probe 0); the shapefile
loader does so only for the default staging-table name `_shape_tmp` —
with a custom name the zero-row branch still creates `_shape_tmp`, the
view's source is missing and the probe fails. -/
theorem C8_zero_row_staging :
    rowCountProbe (gpkgFallbackLoad 0) = some 0
    ∧ rowCountProbe (load_shapefile_into_duck 0 "_shape_tmp") = some 0
    ∧ rowCountProbe (load_shapefile_into_duck 0 "custom_tbl") = none := by
  decide

/-- C4 counterexample: with `sample_limit = 0` the `LIMIT 0` query
returns no example groups, so no `DUPLICATES` issue is emitted even
though a key tuple occurs twice and every key column is present —
refuting the claim's "if and only if". -/
theorem C4_sample_limit_zero :
    hasDuplicateKey dupRel ["k"] = true
    ∧ (("k" :: []).all (fun k => dupRel.present.contains k)) = true
    ∧ (validate_with_duckdb defaultSem dupRel dupTpl0).errors.filter
        (fun i => i.code == "DUPLICATES") = []
    ∧ (validate_with_duckdb defaultSem dupRel dupTpl0).warnings = [] := by
  decide

/-- C4 (amended): all `DUPLICATES` issues come one-per-check through
`dupIssue` at the configured severity (default `error`); a check with a
missing key column emits nothing; for a check with all keys present and
`sample_limit ≥ 1` an issue is emitted iff some key tuple occurs in more
than one row, carrying at most `sample_limit` example groups, each with
its true occurrence count (≥ 2); and `ok` is true iff the errors list is
empty, so a warning-severity `DUPLICATES` issue leaves `ok = true` when
no errors exist.  (With `sample_limit = 0` the issue is suppressed.) -/
theorem C4_duplicate_checks (sem : SqlSem) (rel : Relation) (tpl : Template)
    (d : DupCheck) (_hd : d ∈ tpl.duplicate_checks) (hlim : 1 ≤ d.sample_limit) :
    ((validate_with_duckdb sem rel tpl).errors.filter (fun i => i.code == "DUPLICATES")
        = tpl.duplicate_checks.filterMap (fun d' =>
            if d'.severity == "error" then dupIssue rel d' else none))
    ∧ ((validate_with_duckdb sem rel tpl).warnings.filter (fun i => i.code == "DUPLICATES")
        = tpl.duplicate_checks.filterMap (fun d' =>
            if d'.severity == "error" then none else dupIssue rel d'))
    ∧ (d.keys.all (fun k => rel.present.contains k) = false → dupIssue rel d = none)
    ∧ (d.keys.all (fun k => rel.present.contains k) = true →
        ((dupIssue rel d).isSome = true ↔ hasDuplicateKey rel d.keys = true)
        ∧ ∀ i, dupIssue rel d = some i →
            i.code = "DUPLICATES" ∧ i.keys = some d.keys
            ∧ ∃ ex, i.examples = some ex ∧ ex.length ≤ d.sample_limit
              ∧ ∀ e ∈ ex,
                  e.count = (rel.rows.map (tupleOf rel d.keys)).count e.keyVals
                  ∧ 2 ≤ e.count)
    ∧ ((validate_with_duckdb sem rel tpl).ok = true
        ↔ (validate_with_duckdb sem rel tpl).errors = []) := by
  refine ⟨(validate_dup_filters sem rel tpl).1, (validate_dup_filters sem rel tpl).2,
    dupIssue_missing_key rel d, ?_, validate_ok_iff_errors_nil sem rel tpl⟩
  intro hall
  refine ⟨dupIssue_isSome_iff rel d hall hlim, ?_⟩
  intro i hi
  obtain ⟨hcode, hkeys, hex⟩ := dupIssue_some_spec rel d i hi
  exact ⟨hcode, hkeys, dupExamples rel d.keys d.sample_limit, hex,
    dupExamples_length_le rel d.keys d.sample_limit,
    fun e he => dupExamples_mem_spec rel d.keys d.sample_limit e he⟩

/-- Witness for `C4_duplicate_checks`: the default check on `parcel_id`
over two duplicate rows. -/
theorem C4_duplicate_checks_witness :
    ({ keys := ["parcel_id"] } : DupCheck) ∈ dupTpl.duplicate_checks
    ∧ 1 ≤ ({ keys := ["parcel_id"] } : DupCheck).sample_limit
    ∧ (validate_with_duckdb defaultSem dupRel2 dupTpl).errors.filter
          (fun i => i.code == "DUPLICATES")
        = dupTpl.duplicate_checks.filterMap (fun d' =>
            if d'.severity == "error" then dupIssue dupRel2 d' else none) :=
  ⟨by decide, by decide,
    (C4_duplicate_checks defaultSem dupRel2 dupTpl { keys := ["parcel_id"] }
      (by decide) (by decide)).1⟩

theorem nullPredHolds_eq_spec (T : String) (hT0 : T ≠ "") (nes : List Lit) (v : DVal) :
    nullPredHolds (some T) nes v
      = (match v with
         | .null => true
         | .str s => T == "VARCHAR" && (stringNullEquivs nes).contains s
         | .int _ => false) := by
  unfold nullPredHolds
  by_cases hne : nes.isEmpty = true
  · have hs : stringNullEquivs nes = [] := by
      rw [List.isEmpty_iff] at hne
      subst hne
      rfl
    rw [if_pos (by simp [hne])]
    cases v <;> simp [hs]
  · by_cases hvar : T = "VARCHAR"
    · subst hvar
      rw [if_neg (by simp [hne])]
      by_cases hsv : (stringNullEquivs nes).isEmpty = true
      · rw [if_pos hsv]
        rw [List.isEmpty_iff] at hsv
        cases v <;> simp [hsv]
      · rw [if_neg hsv]
        cases v <;> simp
    · rw [if_pos ?_]
      · cases v <;> simp [beq_eq_false_iff_ne.mpr hvar]
      · simp only [Bool.or_eq_true, Bool.and_eq_true, Bool.not_eq_true']
        right
        exact ⟨beq_eq_false_iff_ne.mpr hT0, beq_eq_false_iff_ne.mpr hvar⟩

theorem nullCount_eq_specNullCount (rel : Relation) (T : String) (hT0 : T ≠ "")
    (nes : List Lit) (c : String) :
    nullCount rel (some T) nes c = specNullCount rel T nes c := by
  unfold nullCount specNullCount
  apply List.countP_congr
  intro row _
  rw [nullPredHolds_eq_spec T hT0 nes (rel.cell row c)]

theorem lookup_name_map (l : List ColumnSpec) (g : ColumnSpec → Nat) (n : String)
    (v : Nat) (h : ∃ c ∈ l, c.name = n) (hg : ∀ c ∈ l, c.name = n → g c = v) :
    (l.map (fun c => (c.name, g c))).lookup n = some v := by
  induction l with
  | nil => simp at h
  | cons c rest ih =>
    by_cases hn : (n == c.name) = true
    · have hcn : c.name = n := (beq_iff_eq.mp hn).symm
      simp [List.lookup, hn, hg c (List.mem_cons_self c rest) hcn]
    · obtain ⟨c', hc', hcn⟩ := h
      rcases List.mem_cons.mp hc' with rfl | hmem
      · exact absurd (by simp [hcn]) hn
      · simp only [List.map_cons, List.lookup, hn, Bool.false_eq_true, if_false]
        exact ih ⟨c', hmem, hcn⟩
          (fun c'' hc'' hn'' => hg c'' (List.mem_cons_of_mem c hc'') hn'')

/-- C5: for every template column present in the relation (whose
`DESCRIBE` type is some non-empty `T`), the engine's null-count metric
for that column equals the number of rows that are `NULL` or — only when
`T = VARCHAR` — equal to a string null-equivalent literal; the metric is
recorded unconditionally, and a non-text physical column is never
compared against string null-equivalents (the `specNullCount` formula
compares only when `T == "VARCHAR"`). -/
theorem C5_null_metric (sem : SqlSem) (rel : Relation) (tpl : Template)
    (c : ColumnSpec) (hc : c ∈ tpl.columns)
    (hp : rel.present.contains c.name = true)
    (T : String) (hT : rel.duckType c.name = some T) (hT0 : T ≠ "") :
    (validate_with_duckdb sem rel tpl).nulls.lookup c.name
      = some (specNullCount rel T tpl.null_equivalents c.name) := by
  have hnulls : (validate_with_duckdb sem rel tpl).nulls
      = (tpl.columns.filter (fun c => rel.present.contains c.name)).map
          (fun c => (c.name,
            nullCount rel (rel.duckType c.name) tpl.null_equivalents c.name)) := rfl
  rw [hnulls]
  apply lookup_name_map _ _ _ _ ⟨c, List.mem_filter.mpr ⟨hc, hp⟩, rfl⟩
  intro c' _ hn'
  rw [hn', hT]
  exact nullCount_eq_specNullCount rel T hT0 tpl.null_equivalents c.name

/-- Witness for `C5_null_metric`: column `a` (VARCHAR) with values
`"NA"`, `NULL`, `"x"` and null-equivalent `"NA"`. -/
theorem C5_null_metric_witness :
    ({ name := "a", dtype := "string" } : ColumnSpec) ∈ nullTpl.columns
    ∧ nullRel.present.contains "a" = true
    ∧ nullRel.duckType "a" = some "VARCHAR"
    ∧ (validate_with_duckdb defaultSem nullRel nullTpl).nulls.lookup "a"
        = some (specNullCount nullRel "VARCHAR" nullTpl.null_equivalents "a") :=
  ⟨by decide, by decide, by decide,
    C5_null_metric defaultSem nullRel nullTpl { name := "a", dtype := "string" }
      (by decide) (by decide) "VARCHAR" (by decide) (by decide)⟩


end QuapValidator
